import Mathlib

/-!
Verification of the pipeline repository's conversion, validation and
reconciliation-status behaviours, over a shallow embedding of the Go source.

The embedding follows the source files under consideration:
* `pkg/apis/pipeline/v1beta1/taskref_conversion.go` — TaskRef conversion
  between the v1beta1 and v1 API revisions, including the legacy `bundle`
  field and the `bundles` resolver form.
Parts of the repository whose code is not available (only tests or callers
are) are modelled from the specification; such definitions carry a doc
comment starting with `Modelled from the spec:`.
-/

namespace Tekton

/-- Embedding of the Go `ParamValue` struct (shared shape between the
v1beta1 and v1 revisions): a tagged value with type tag, string, array and
object payloads.  Absent fields take Go zero values. -/
structure ParamValue where
  type : String := ""
  stringVal : String := ""
  arrayVal : List String := []
  objectVal : List (String × String) := []
deriving DecidableEq, Repr

/-- Embedding of the Go `Param` struct: a named `ParamValue`. -/
structure Param where
  name : String := ""
  value : ParamValue := {}
deriving DecidableEq, Repr

/-- Embedding of the Go `ResolverRef` struct: a resolver name plus the
parameters handed to the resolver. -/
structure ResolverRef where
  resolver : String := ""
  params : List Param := []
deriving DecidableEq, Repr

/-- Modelled from the spec: `ResolverRef.convertTo` (its source file,
`resolver_conversion.go`, is not among the available sources; §4.1 requires
field-wise conversion and `TestResolverConversion` pins a one-to-one copy of
`Resolver` and `Params`). -/
def ResolverRef.convertTo (r : ResolverRef) : ResolverRef :=
  { resolver := r.resolver, params := r.params }

/-- Modelled from the spec: `ResolverRef.convertFrom`, the inverse one-to-one
field copy (see `ResolverRef.convertTo`). -/
def ResolverRef.convertFrom (source : ResolverRef) : ResolverRef :=
  { resolver := source.resolver, params := source.params }

/-- Embedding of the v1beta1 Go `TaskRef` struct: name, kind, apiVersion,
the legacy v1beta1-only `bundle` field, and an embedded `ResolverRef`. -/
structure TaskRef where
  name : String := ""
  kind : String := ""
  apiVersion : String := ""
  bundle : String := ""
  resolverRef : ResolverRef := {}
deriving DecidableEq, Repr

/-- Embedding of the v1 Go `TaskRef` struct: as v1beta1 but without the
legacy `bundle` field. -/
structure V1TaskRef where
  name : String := ""
  kind : String := ""
  apiVersion : String := ""
  resolverRef : ResolverRef := {}
deriving DecidableEq, Repr

/-- Embedding of `TaskRef.convertBundleToResolver` from
`taskref_conversion.go`: when the v1beta1 `bundle` field is non-empty the v1
sink's ResolverRef is replaced by a `bundles` resolver reference carrying
`bundle`, `name` and `kind` params (the source fills both the `name` and the
`kind` param from `tr.Name`). -/
def TaskRef.convertBundleToResolver (tr : TaskRef) (sink : V1TaskRef) : V1TaskRef :=
  if tr.bundle ≠ "" then
    { sink with
      resolverRef :=
        { resolver := "bundles"
          params :=
            [ { name := "bundle", value := { stringVal := tr.bundle } }
            , { name := "name", value := { stringVal := tr.name } }
            , { name := "kind", value := { stringVal := tr.name } } ] } }
  else sink

/-- Embedding of `TaskRef.convertTo` from `taskref_conversion.go`: copy the
scalar fields, convert the embedded ResolverRef, then apply the bundle
rewrite. -/
def TaskRef.convertTo (tr : TaskRef) : V1TaskRef :=
  let sink : V1TaskRef :=
    { name := tr.name
      kind := tr.kind
      apiVersion := tr.apiVersion
      resolverRef := tr.resolverRef.convertTo }
  tr.convertBundleToResolver sink

/-- Embedding of `TaskRef.convertResolverToBundle` from
`taskref_conversion.go`: when the v1 source uses the `bundles` resolver, walk
its params and pull the `bundle` and `name` params back into the v1beta1
fields.  The source does not clear the ResolverRef. -/
def TaskRef.convertResolverToBundle (source : V1TaskRef) (tr : TaskRef) : TaskRef :=
  if source.resolverRef.resolver == "bundles" then
    source.resolverRef.params.foldl
      (fun acc p =>
        let acc1 := if p.name == "bundle" then { acc with bundle := p.value.stringVal } else acc
        if p.name == "name" then { acc1 with name := p.value.stringVal } else acc1)
      tr
  else tr

/-- Embedding of `TaskRef.convertFrom` from `taskref_conversion.go`: copy the
scalar fields and the ResolverRef from the v1 source into a fresh v1beta1 ref
(whose `bundle` starts at the Go zero value), then apply the resolver-to-
bundle rewrite. -/
def TaskRef.convertFrom (source : V1TaskRef) : TaskRef :=
  let tr : TaskRef :=
    { name := source.name
      kind := source.kind
      apiVersion := source.apiVersion
      bundle := ""
      resolverRef := ResolverRef.convertFrom source.resolverRef }
  TaskRef.convertResolverToBundle source tr

/-- A v1beta1 TaskRef expressible and well-formed in both API revisions:
no legacy `bundle` (a v1beta1-only field), and the name-xor-resolver shape
required by ref validation (modelled on `PipelineRef.Validate`). -/
def TaskRef.validBothRevisions (tr : TaskRef) : Bool :=
  tr.bundle == "" &&
  (if tr.resolverRef.resolver ≠ "" || !tr.resolverRef.params.isEmpty then
    tr.name == "" && (tr.resolverRef.params.isEmpty || tr.resolverRef.resolver ≠ "")
  else tr.name ≠ "")

/-- Look up the string value of the named param in a param list, as
`convertResolverToBundle`'s loop does. -/
def findParamValue (ps : List Param) (n : String) : Option String :=
  (ps.find? (fun p => p.name == n)).map (fun p => p.value.stringVal)

/-- A v1beta1 TaskRef that is valid in both revisions yet does not
round-trip: it uses the `bundles` resolver directly, and `convertFrom`
overwrites its empty `Name` (and `Bundle`) from the resolver params. -/
def bundlesResolverRef : TaskRef :=
  { name := ""
    kind := ""
    apiVersion := ""
    bundle := ""
    resolverRef :=
      { resolver := "bundles"
        params :=
          [ { name := "bundle", value := { stringVal := "registry.example/repo:tag" } }
          , { name := "name", value := { stringVal := "git-clone" } } ] } }

/-- A plain by-name v1beta1 TaskRef with a bundle, used to exhibit the value
stored in the `kind` param by `convertBundleToResolver`. -/
def bundleTaskRef : TaskRef :=
  { name := "my-task"
    kind := "Task"
    apiVersion := ""
    bundle := "registry.example/repo:tag"
    resolverRef := {} }

/-- Accumulate the decimal digits of a character list; `none` on any
non-digit character. -/
def parseDecimal (cs : List Char) (acc : Nat) : Option Nat :=
  match cs with
  | [] => some acc
  | c :: rest =>
    if '0' ≤ c ∧ c ≤ '9' then parseDecimal rest (acc * 10 + (c.toNat - '0'.toNat))
    else none

/-- Integer a shell arithmetic expansion reads from a substituted string,
defaulting to 0; the conformance scenarios only feed decimal literals. -/
def parseIntD (s : String) : Int :=
  match s.data with
  | '-' :: rest => -(Int.ofNat ((parseDecimal rest 0).getD 0))
  | cs => Int.ofNat ((parseDecimal cs 0).getD 0)

/-- Embedding of the multiply task's step script from
`TestPipelineRunTaskFinally`: `echo -n $(( a * b ))` written to the
`product` result file. -/
def multiplyTaskScript (a b : String) : String :=
  toString (parseIntD a * parseIntD b)

/-- The two observable results of the `TestPipelineRunTaskFinally` pipeline. -/
structure FinallyScenarioResults where
  taskResult : String
  finallyResult : String
deriving DecidableEq, Repr

/-- Modelled from the spec: the data flow of the `TestPipelineRunTaskFinally`
pipeline (the PipelineRun reconciler's result propagation is not among the
available sources; §4.5 items 4-5 describe finally params and result
aggregation).  `tasks.multiply-inputs` multiplies the run params; the finally
task `exponent` receives, for both of its operands, the concatenation
`$(tasks.multiply-inputs.results.product)$(tasks.multiply-inputs.results.product)`
and multiplies them; the pipeline results expose both products. -/
def pipelineRunTaskFinally (a b : String) : FinallyScenarioResults :=
  let product := multiplyTaskScript a b
  let opA := product ++ product
  let opB := product ++ product
  { taskResult := product
    finallyResult := multiplyTaskScript opA opB }

/-- Embedding of the expected value computed by the test itself
(poc_conformance_test.go:1484):
`strconv.Itoa((inputOp0*10 + inputOp0) * (inputOp1*10 + inputOp1) * inputOp0 * inputOp1)`. -/
def expectedFinallyResultVal (inputOp0 inputOp1 : Int) : String :=
  toString ((inputOp0 * 10 + inputOp0) * (inputOp1 * 10 + inputOp1) * inputOp0 * inputOp1)

/-- Observed termination of one step's container: its exit code and how long
it ran (nonnegative for any really observed container). -/
structure StepExec where
  exitCode : Int
  duration : Int
deriving DecidableEq, Repr

/-- Modelled from the spec: the termination reason the TaskRun reconciler
projects for a terminated step — `Completed` on exit 0, `Error` on non-zero
(§4.4 item 4; the projection code is not among the available sources, its
behaviour is pinned by `TestStepStateContainerStateTerminated`). -/
def terminationReason (exitCode : Int) : String :=
  if exitCode = 0 then "Completed" else "Error"

/-- Embedding of the `ContainerStateTerminated` portion of a `StepState`:
exit code, projected reason, and start/finish timestamps (absent until the
reconciler observes them). -/
structure ContainerStateTerminated where
  exitCode : Int
  reason : String
  startedAt : Option Int
  finishedAt : Option Int
deriving DecidableEq, Repr

/-- Embedding of the projected `StepState` for a terminated step. -/
structure StepState where
  terminated : ContainerStateTerminated
deriving DecidableEq, Repr

/-- Modelled from the spec: projection of a TaskRun whose steps all run to
termination, executed strictly in declared order (§4.4 items 3-4): each step
starts when its predecessor finished, and its termination state records the
exit code, the projected reason and both timestamps. -/
def runStepsToTermination (start : Int) : List StepExec → List StepState
  | [] => []
  | s :: rest =>
    { terminated :=
        { exitCode := s.exitCode
          reason := terminationReason s.exitCode
          startedAt := some start
          finishedAt := some (start + s.duration) } } ::
      runStepsToTermination (start + s.duration) rest

/-- The step state projected for the second step of a two-step TaskRun whose
second step exits 1 after running 3 time units starting at time 5. -/
def sampleStepState : StepState :=
  { terminated :=
      { exitCode := 1, reason := "Error", startedAt := some 5, finishedAt := some 8 } }

/-- A published condition: type, status and reason. -/
structure Condition where
  type : String
  status : String
  reason : String
deriving DecidableEq, Repr

/-- Observed aggregate state of a TaskRun's steps. -/
inductive StepsOutcome where
  | running
  | allSucceeded
  | someFailed
deriving DecidableEq, Repr

/-- Modelled from the spec: the TaskRun `Succeeded` condition computation
(§4.4 item 5; the reconciler is not among the available sources).  Explicit
cancellation wins, then the wall-clock timeout check against `spec.timeout`
(0 meaning unbounded), then the projected step outcome. -/
def taskRunCondition (elapsed timeout : Int) (cancelled : Bool)
    (outcome : StepsOutcome) : Condition :=
  if cancelled then { type := "Succeeded", status := "False", reason := "TaskRunCancelled" }
  else if 0 < timeout ∧ timeout < elapsed then
    { type := "Succeeded", status := "False", reason := "TaskRunTimeout" }
  else
    match outcome with
    | .running => { type := "Succeeded", status := "Unknown", reason := "Running" }
    | .allSucceeded => { type := "Succeeded", status := "True", reason := "Succeeded" }
    | .someFailed => { type := "Succeeded", status := "False", reason := "Failed" }

/-- Embedding of a PipelineTask as far as child naming needs it. -/
structure PipelineTaskRef where
  name : String
deriving DecidableEq, Repr

/-- Embedding of a `ChildStatusReference` entry of a PipelineRun status. -/
structure ChildStatusReference where
  pipelineTaskName : String
  name : String
deriving DecidableEq, Repr

/-- Modelled from the spec: the deterministic child TaskRun name (§6 workload
contract; pinned by `TestPipelineRunChildReferences`): the PipelineRun name
and the PipelineTask name joined with a hyphen. -/
def childTaskRunName (prName ptName : String) : String :=
  prName ++ "-" ++ ptName

/-- Modelled from the spec: `ChildReferences` recorded by the PipelineRun
reconciler — one entry per PipelineTask, in declaration order (§4.5 item 3). -/
def childReferences (prName : String) (tasks : List PipelineTaskRef) :
    List ChildStatusReference :=
  tasks.map (fun pt => { pipelineTaskName := pt.name, name := childTaskRunName prName pt.name })

/-- A structured validation error: the kinds produced by the modelled
PipelineRun / resolved-task validation, each carrying the data its message
is built from (field path, offending literal, names). -/
inductive FieldErr where
  | missingOneOf (paths : List String)
  | disallowedTimeoutAndTimeouts
  | invalidStatusValue
  | pendingAfterStarted
  | negativeDuration (path : String)
  | timeoutExceedsBound (path : String)
  | timeoutSumExceedsBound
  | nonExistentVariable (literal : String) (path : String)
  | missingParams (names : List String)
  | wrongTypeParams (names : List String)
  | missingKeysObjectParam (entries : List (String × List String))
deriving DecidableEq, Repr

/-- Embedding of the `TimeoutFields` triplet of a PipelineRun spec.
Durations are in seconds; `none` means the field is not set and `0` means
unbounded.  `finallyT` embeds the Go `Finally` field. -/
structure TimeoutFields where
  pipeline : Option Int := none
  tasks : Option Int := none
  finallyT : Option Int := none
deriving DecidableEq, Repr

/-- The configured default timeout applied when `timeouts.pipeline` is not
set (the config default of 60 minutes, in seconds). -/
def defaultTimeoutSeconds : Int := 3600

/-- Modelled from the spec: §4.2 — a negative duration is rejected with
`should be >= 0` at the field's path. -/
def validateDuration (path : String) : Option Int → List FieldErr
  | none => []
  | some d => if d < 0 then [.negativeDuration path] else []

/-- Modelled from the spec: the per-bucket bound check of the timeout chain
(§3): against a non-zero bound, a set bucket must be positive and no larger
than the bound; a zero bucket (`no timeout`) is rejected unless the bound is
itself zero. -/
def boundErr (path : String) (bound : Int) : Option Int → List FieldErr
  | none => []
  | some d =>
    if (bound ≠ 0 ∧ bound < d) ∨ (d = 0 ∧ bound ≠ 0) then [.timeoutExceedsBound path]
    else []

/-- Modelled from the spec: the chain checks against the effective pipeline
bound — `timeouts.pipeline` when set, the configured default otherwise —
including the `tasks + finally` sum check. -/
def validateTimeoutBounds (tf : TimeoutFields) : List FieldErr :=
  boundErr "spec.timeouts.tasks" (tf.pipeline.getD defaultTimeoutSeconds) tf.tasks ++
  boundErr "spec.timeouts.finally" (tf.pipeline.getD defaultTimeoutSeconds) tf.finallyT ++
  (match tf.tasks, tf.finallyT with
   | some t, some f =>
     if tf.pipeline.getD defaultTimeoutSeconds ≠ 0 ∧
         tf.pipeline.getD defaultTimeoutSeconds < t + f then
       [.timeoutSumExceedsBound]
     else []
   | _, _ => [])

/-- Modelled from the spec: validation of a set `timeouts` triplet
(§4.2 semantic timeouts; the PipelineRun validation source is not among the
available sources, its behaviour is pinned by
`TestPipelineRun_InvalidTimeouts` and `TestPipelineRunWithTimeout_Validate`). -/
def validateTimeouts (tf : TimeoutFields) : List FieldErr :=
  validateDuration "spec.timeouts.pipeline" tf.pipeline ++
  validateDuration "spec.timeouts.tasks" tf.tasks ++
  validateDuration "spec.timeouts.finally" tf.finallyT ++
  validateTimeoutBounds tf

/-- A set duration is nonnegative (unset passes). -/
def durOK : Option Int → Bool
  | none => true
  | some d => decide (0 ≤ d)

/-- The claim's per-bucket chain condition against the effective bound. -/
def fieldChainOK (bound : Int) : Option Int → Bool
  | none => true
  | some d => bound == 0 || (0 < d && d ≤ bound)

/-- The timeout chain exactly as the specification states it (§3): every set
duration nonnegative and, against the effective pipeline bound, `tasks ≤
pipeline`, `finally ≤ pipeline` and `tasks + finally ≤ pipeline` when the
bound is positive, zero buckets allowed only under a zero bound. -/
def timeoutChainOK (tf : TimeoutFields) : Bool :=
  durOK tf.pipeline && durOK tf.tasks && durOK tf.finallyT &&
  fieldChainOK (tf.pipeline.getD defaultTimeoutSeconds) tf.tasks &&
  fieldChainOK (tf.pipeline.getD defaultTimeoutSeconds) tf.finallyT &&
  (match tf.tasks, tf.finallyT with
   | some t, some f =>
     tf.pipeline.getD defaultTimeoutSeconds == 0 ||
       t + f ≤ tf.pipeline.getD defaultTimeoutSeconds
   | _, _ => true)

/-- Embedding of the step shape used by the inlined task specs of the
PipelineRun validation tests. -/
structure Step where
  name : String := ""
  image : String := ""
  command : List String := []
  args : List String := []
  script : String := ""
deriving DecidableEq, Repr

/-- Embedding of a param declaration (`ParamSpec`): name, type, declared
object property keys, optional default value. -/
structure ParamSpec where
  name : String := ""
  type : String := "string"
  properties : List String := []
  defaultVal : Option ParamValue := none
deriving DecidableEq, Repr

/-- Embedding of an inlined `TaskSpec`: declared params and ordered steps. -/
structure TaskSpec where
  params : List ParamSpec := []
  steps : List Step := []
deriving DecidableEq, Repr

/-- Embedding of a `PipelineTask`: name, bound params, inlined task spec. -/
structure PipelineTask where
  name : String := ""
  params : List Param := []
  taskSpec : Option TaskSpec := none
deriving DecidableEq, Repr

/-- Embedding of an inlined `PipelineSpec`: declared params and tasks. -/
structure PipelineSpec where
  params : List ParamSpec := []
  tasks : List PipelineTask := []
deriving DecidableEq, Repr

/-- Embedding of a `PipelineRunSpec`: ref-or-spec, supplied params, the
requested spec status, and the legacy single `timeout` next to the
`timeouts` triplet. -/
structure PipelineRunSpec where
  pipelineRef : Option String := none
  pipelineSpec : Option PipelineSpec := none
  params : List Param := []
  status : String := ""
  timeout : Option Int := none
  timeouts : Option TimeoutFields := none
deriving DecidableEq, Repr

/-- Embedding of a `PipelineRun` as validation sees it: metadata name, spec,
and whether `status.startTime` is set. -/
structure PipelineRun where
  name : String := ""
  spec : PipelineRunSpec := {}
  startTimeSet : Bool := false
deriving DecidableEq, Repr

/-- Scan a character list for `$(params.<symbol>...)` references, returning
for each the referenced symbol and the full `$(...)` literal.  The symbol
stops at `[` (array star or index), `.` (object key) or the closing paren. -/
def extractParamRefs : List Char → List (String × String)
  | [] => []
  | '$' :: rest =>
    (match rest with
     | '(' :: rest2 =>
       if "params.".toList.isPrefixOf rest2 ∧ ')' ∈ rest2 then
         [((String.mk ((rest2.drop 7).takeWhile (fun c => c ≠ '[' ∧ c ≠ '.' ∧ c ≠ ')'))),
           String.mk ('$' :: '(' :: rest2.takeWhile (fun c => c ≠ ')') ++ [')']))]
       else []
     | _ => []) ++ extractParamRefs rest
  | _ :: rest => extractParamRefs rest

/-- Modelled from the spec: the set of param names in scope for a step of an
inlined task spec (§4.2 variable references, §4.3 precedence): params
supplied by the run (propagated), declared by the pipeline spec, bound on
the pipeline task, and declared by the task spec. -/
def scopeNames (spec : PipelineRunSpec) (pt : PipelineTask) (ts : TaskSpec) : List String :=
  spec.params.map (fun p => p.name) ++
  (spec.pipelineSpec.map (fun ps => ps.params.map (fun p => p.name))).getD [] ++
  pt.params.map (fun p => p.name) ++
  ts.params.map (fun p => p.name)

/-- Modelled from the spec: references of one string field against the scope
— every `$(params.X)` whose symbol is undeclared produces
`non-existent variable in "<literal>"` at the field's path. -/
def refErrs (scope : List String) (path : String) (s : String) : List FieldErr :=
  (extractParamRefs s.data).filterMap (fun r =>
    if r.1 ∈ scope then none else some (.nonExistentVariable r.2 path))

/-- Walk an indexed list of string fields (args or command), building each
field's path from the base path and index. -/
def refErrsIndexed (scope : List String) (base : String) (i : Nat) :
    List String → List FieldErr
  | [] => []
  | s :: rest =>
    refErrs scope (base ++ "[" ++ toString i ++ "]") s ++
      refErrsIndexed scope base (i + 1) rest

/-- Modelled from the spec: the unresolved-reference walk over one step's
string fields, reported at `spec.steps[i]`-rooted paths as the tests pin. -/
def validateStepRefs (scope : List String) (si : Nat) (st : Step) : List FieldErr :=
  refErrsIndexed scope ("spec.steps[" ++ toString si ++ "].command") 0 st.command ++
  refErrsIndexed scope ("spec.steps[" ++ toString si ++ "].args") 0 st.args ++
  refErrs scope ("spec.steps[" ++ toString si ++ "].script") st.script

/-- Walk a task spec's steps in declaration order. -/
def validateStepsRefs (scope : List String) (si : Nat) : List Step → List FieldErr
  | [] => []
  | st :: rest => validateStepRefs scope si st ++ validateStepsRefs scope (si + 1) rest

/-- Modelled from the spec: §4.2 variable-reference validation over every
inlined task spec of the pipeline spec (the validation source is not among
the available sources; pinned by the propagating-params cases of
`TestPipelineRun_Invalid` and `TestPipelineRun_Validate`). -/
def validateVariableRefs (spec : PipelineRunSpec) : List FieldErr :=
  match spec.pipelineSpec with
  | none => []
  | some ps =>
    ps.tasks.flatMap (fun pt =>
      match pt.taskSpec with
      | none => []
      | some ts => validateStepsRefs (scopeNames spec pt ts) 0 ts.steps)

/-- Modelled from the spec: §4.2 — PipelineRun validation, aggregating all
errors: `pipelineRef` xor `pipelineSpec`, the admissible `spec.status`
values, the Pending status-transition rule against `status.startTime`, the
legacy `timeout` field (negative check and mutual exclusion with
`timeouts`), the timeout chain, and unresolved variable references. -/
def PipelineRun.validate (pr : PipelineRun) : List FieldErr :=
  (match pr.spec.pipelineRef, pr.spec.pipelineSpec with
   | none, none => [.missingOneOf ["spec.pipelineRef", "spec.pipelineSpec"]]
   | _, _ => []) ++
  (if pr.spec.status ∈ ["", "Cancelled", "CancelledRunFinally", "StoppedRunFinally",
      "PipelineRunPending"] then [] else [.invalidStatusValue]) ++
  (if pr.spec.status == "PipelineRunPending" && pr.startTimeSet then
    [.pendingAfterStarted]
  else []) ++
  validateDuration "spec.timeout" pr.spec.timeout ++
  (match pr.spec.timeouts with
   | none => []
   | some tf =>
     (if pr.spec.timeout.isSome then [.disallowedTimeoutAndTimeouts] else []) ++
       validateTimeouts tf) ++
  validateVariableRefs pr.spec

/-- The declared object property keys covered by a param declaration's
default value. -/
def defaultKeys (s : ParamSpec) : List String :=
  (s.defaultVal.map (fun d => d.objectVal.map (fun kv => kv.1))).getD []

/-- The object keys the run's value supplies for the named param. -/
def providedKeys (params : List Param) (n : String) : List String :=
  ((params.find? (fun p => p.name == n)).map
    (fun p => p.value.objectVal.map (fun kv => kv.1))).getD []

/-- Modelled from the spec: `MissingKeysObjectParamNames` — for every
object-typed declaration, the property keys not covered by its default must
be supplied by the run's value; returns the declarations with their missing
keys. -/
def missingKeysObjectParamNames (specs : List ParamSpec) (params : List Param) :
    List (String × List String) :=
  specs.filterMap (fun s =>
    if s.type = "object" then
      match (s.properties.filter (fun k => k ∉ defaultKeys s)).filter
          (fun k => k ∉ providedKeys params s.name) with
      | [] => none
      | ks => some (s.name, ks)
    else none)

/-- Modelled from the spec: the missing-params check of `ValidateResolvedTask`
— every declared param without a default must be supplied by the run. -/
def missingParamNames (specs : List ParamSpec) (params : List Param) : List String :=
  (specs.filter (fun s =>
    s.defaultVal.isNone && !(params.any (fun p => p.name == s.name)))).map
    (fun s => s.name)

/-- Modelled from the spec: the type check of `ValidateResolvedTask` — a
supplied param whose value type differs from its declaration's type. -/
def wrongTypeParamNames (specs : List ParamSpec) (params : List Param) : List String :=
  (params.filter (fun p =>
    specs.any (fun s => s.name == p.name && s.type ≠ p.value.type))).map
    (fun p => p.name)

/-- Modelled from the spec: §4.2 param matching of `ValidateResolvedTask`
(the source is not among the available sources; pinned by
`TestValidateResolvedTask_ValidParams` / `_InvalidParams`): missing required
params, mistyped params, and object params with uncovered property keys. -/
def validateResolvedParams (specs : List ParamSpec) (params : List Param) :
    List FieldErr :=
  (match missingParamNames specs params with
   | [] => []
   | ns => [.missingParams ns]) ++
  (match wrongTypeParamNames specs params with
   | [] => []
   | ns => [.wrongTypeParams ns]) ++
  (match missingKeysObjectParamNames specs params with
   | [] => []
   | entries => [.missingKeysObjectParam entries])

/-- The object param declarations of `TestValidateResolvedTask`: one without
a default, one whose default covers `key1` and `key2` but not `key3`. -/
def objParamSpecs : List ParamSpec :=
  [ { name := "myObjWithoutDefault", type := "object", properties := ["key1", "key2"] }
  , { name := "myObjWithDefault", type := "object"
      properties := ["key1", "key2", "key3"]
      defaultVal := some
        { type := "object"
          objectVal := [("key1", "val1-default"), ("key2", "val2-default")] } } ]

/-- The accepted run values of `TestValidateResolvedTask_ValidParams`: all
keys of the default-less object supplied (plus an extra one), and only the
keys missing from the other object's default. -/
def objParamsOK : List Param :=
  [ { name := "myObjWithoutDefault"
      value := { type := "object"
                 objectVal := [("key1", "val1"), ("key2", "val2"), ("extra_key", "val3")] } }
  , { name := "myObjWithDefault"
      value := { type := "object", objectVal := [("key2", "val2"), ("key3", "val3")] } } ]

/-- The rejected run values of the `missing object param keys` case of
`TestValidateResolvedTask_InvalidParams`: `key2` of the default-less object
is not supplied, and `key2` of the defaulted object is covered neither by
its default nor by the run. -/
def objParamsMissing : List Param :=
  [ { name := "myObjWithoutDefault"
      value := { type := "object", objectVal := [("key1", "val1"), ("misskey", "val2")] } }
  , { name := "myObjWithDefault"
      value := { type := "object", objectVal := [("key3", "val3")] } } ]

/-- The step of the `propagating params` test cases: its args reference
`$(params.random-words[*])`. -/
def propagatingStep : Step :=
  { name := "echo", image := "ubuntu", command := ["echo"]
    args := ["$(params.random-words[*])"] }

/-- The inlined task spec holding `propagatingStep`. -/
def propagatingTaskSpec : TaskSpec :=
  { steps := [propagatingStep] }

/-- The pipeline task `echoit` of the propagating-params test cases. -/
def propagatingTask : PipelineTask :=
  { name := "echoit", taskSpec := some propagatingTaskSpec }

/-- The inlined pipeline spec of the propagating-params test cases. -/
def propagatingPipelineSpec : PipelineSpec :=
  { tasks := [propagatingTask] }

/-- The `propagating params with pipelinespec and taskspec` PipelineRun: the
run supplies only `pipeline-words`, so `random-words` is out of scope. -/
def propagatingRun : PipelineRun :=
  { name := "pipelinelinename"
    spec :=
      { params := [{ name := "pipeline-words"
                     value := { arrayVal := ["hello", "pipeline"] } }]
        pipelineSpec := some propagatingPipelineSpec } }

end Tekton

namespace Tekton

/-- C1 counterexample: the round-trip claim fails as stated.  The ref
`bundlesResolverRef` is valid in both revisions (pure resolver form, no
bundle), yet `convertFrom (convertTo ·)` changes it: `convertResolverToBundle`
fires on the `bundles` resolver and overwrites `Name` and `Bundle` from the
resolver params, so the result is not semantically equal to the original. -/
theorem taskRef_roundtrip_claim_counterexample :
    TaskRef.validBothRevisions bundlesResolverRef = true ∧
    TaskRef.convertFrom (TaskRef.convertTo bundlesResolverRef) ≠ bundlesResolverRef := by
  constructor
  · rfl
  · decide

/-- C1 (amended): for every v1beta1 TaskRef valid in both revisions whose
ResolverRef does not use the `bundles` resolver, converting to v1 and back is
the identity — in particular an empty ResolverRef comes back empty and Kind
is restored. -/
theorem taskRef_roundtrip (tr : TaskRef)
    (hvalid : TaskRef.validBothRevisions tr = true)
    (hres : tr.resolverRef.resolver ≠ "bundles") :
    TaskRef.convertFrom (TaskRef.convertTo tr) = tr := by
  simp only [TaskRef.validBothRevisions, Bool.and_eq_true, beq_iff_eq] at hvalid
  have hbundle : tr.bundle = "" := hvalid.left
  have hres2 : (tr.resolverRef.resolver == "bundles") = false :=
    beq_eq_false_iff_ne.mpr hres
  cases tr with
  | mk name kind apiVersion bundle resolverRef =>
    cases resolverRef with
    | mk resolver params =>
      simp only at hbundle hres2
      simp only [TaskRef.convertFrom, TaskRef.convertTo, TaskRef.convertBundleToResolver,
        TaskRef.convertResolverToBundle, ResolverRef.convertTo, ResolverRef.convertFrom,
        hbundle, ne_eq, not_true_eq_false, if_false, hres2, Bool.false_eq_true]

/-- C1 witness: a concrete by-name ref round-trips unchanged. -/
theorem taskRef_roundtrip_witness :
    TaskRef.convertFrom (TaskRef.convertTo { name := "my-task", kind := "Task" }) =
      ({ name := "my-task", kind := "Task" } : TaskRef) :=
  taskRef_roundtrip { name := "my-task", kind := "Task" } (by decide) (by decide)

/-- C2 counterexample: the `kind` param produced by `convertBundleToResolver`
does not carry the original Kind.  On `bundleTaskRef` (Kind `Task`, Name
`my-task`) the `kind` param holds the Name, and the conversion stores nothing
in the preservation annotation key (`convertFrom` rebuilds the bundle from
the resolver params instead). -/
theorem bundle_kind_param_counterexample :
    findParamValue (TaskRef.convertTo bundleTaskRef).resolverRef.params "kind" ≠
      some bundleTaskRef.kind := by
  decide

/-- C2 (amended): for every v1beta1 TaskRef with a non-empty Bundle,
`convertTo` produces a `bundles` ResolverRef whose params carry the original
Bundle under `bundle`, the original Name under `name`, and again the original
Name (not the Kind) under `kind`; `convertFrom` then reconstructs the bundle
and name directly from those resolver params. -/
theorem convertBundleToResolver_spec (tr : TaskRef) (hb : tr.bundle ≠ "") :
    (TaskRef.convertTo tr).resolverRef =
      { resolver := "bundles"
        params :=
          [ { name := "bundle", value := { stringVal := tr.bundle } }
          , { name := "name", value := { stringVal := tr.name } }
          , { name := "kind", value := { stringVal := tr.name } } ] } ∧
    (TaskRef.convertFrom (TaskRef.convertTo tr)).bundle = tr.bundle ∧
    (TaskRef.convertFrom (TaskRef.convertTo tr)).name = tr.name := by
  have hto : (TaskRef.convertTo tr).resolverRef =
      { resolver := "bundles"
        params :=
          [ { name := "bundle", value := { stringVal := tr.bundle } }
          , { name := "name", value := { stringVal := tr.name } }
          , { name := "kind", value := { stringVal := tr.name } } ] } := by
    simp only [TaskRef.convertTo, TaskRef.convertBundleToResolver, if_pos hb]
  refine ⟨hto, ?_⟩
  simp only [TaskRef.convertFrom, TaskRef.convertResolverToBundle, hto,
    ResolverRef.convertFrom]
  simp only [List.foldl_cons, List.foldl_nil]
  constructor <;> rfl

/-- C2 witness: the amended statement evaluated on `bundleTaskRef`. -/
theorem convertBundleToResolver_spec_witness :
    (TaskRef.convertTo bundleTaskRef).resolverRef =
      { resolver := "bundles"
        params :=
          [ { name := "bundle", value := { stringVal := "registry.example/repo:tag" } }
          , { name := "name", value := { stringVal := "my-task" } }
          , { name := "kind", value := { stringVal := "my-task" } } ] } ∧
    (TaskRef.convertFrom (TaskRef.convertTo bundleTaskRef)).bundle =
      "registry.example/repo:tag" ∧
    (TaskRef.convertFrom (TaskRef.convertTo bundleTaskRef)).name = "my-task" :=
  convertBundleToResolver_spec bundleTaskRef (by decide)

/-- C6 counterexample: with inputs a=3, b=1 the finally scenario does not
produce "10890" — neither by the test's own expected-value formula
`(3*10+3)*(1*10+1)*3*1` nor by the modelled pipeline data flow. -/
theorem finally_result_counterexample :
    expectedFinallyResultVal 3 1 ≠ "10890" ∧
    (pipelineRunTaskFinally "3" "1").finallyResult ≠ "10890" := by
  constructor <;> decide

/-- C6 (amended): with inputs a=3, b=1 the task `multiply-inputs` produces
product "3"; the finally task `exponent` multiplies the concatenation "33"
with itself, so the pipeline-level result `finally-result` equals "1089",
which also equals the test's expected-value formula `33*11*3*1`. -/
theorem finally_result_value :
    pipelineRunTaskFinally "3" "1" =
      { taskResult := "3", finallyResult := "1089" } ∧
    expectedFinallyResultVal 3 1 = "1089" := by
  constructor <;> rfl

/-- C5: for every TaskRun whose steps all run to termination (observed
durations nonnegative), each projected StepState.Terminated has reason
`Completed` exactly when the step exited 0 and `Error` exactly when it exited
non-zero, and both timestamps are set with finishedAt >= startedAt. -/
theorem stepStates_terminated_spec (steps : List StepExec) (start : Int)
    (hdur : ∀ s ∈ steps, 0 ≤ s.duration) :
    ∀ st ∈ runStepsToTermination start steps,
      (st.terminated.reason = "Completed" ↔ st.terminated.exitCode = 0) ∧
      (st.terminated.reason = "Error" ↔ st.terminated.exitCode ≠ 0) ∧
      ∃ t0 t1, st.terminated.startedAt = some t0 ∧
        st.terminated.finishedAt = some t1 ∧ t0 ≤ t1 := by
  induction steps generalizing start with
  | nil =>
    intro st hst
    simp [runStepsToTermination] at hst
  | cons s rest ih =>
    intro st hst
    simp only [runStepsToTermination, List.mem_cons] at hst
    rcases hst with h | h
    · subst h
      refine ⟨?_, ?_, start, start + s.duration, rfl, rfl, ?_⟩
      · by_cases hz : s.exitCode = 0
        · simp [terminationReason, hz]
        · simp only [terminationReason, if_neg hz]
          exact ⟨fun h => absurd h (by decide), fun h => absurd h hz⟩
      · by_cases hz : s.exitCode = 0
        · simp only [terminationReason, if_pos hz]
          exact ⟨fun h => absurd h (by decide), fun h => absurd hz h⟩
        · simp [terminationReason, hz]
      · have := hdur s (List.mem_cons_self s rest)
        omega
    · exact ih (start + s.duration) (fun x hx => hdur x (List.mem_cons_of_mem s hx)) st h

/-- C5 witness: the theorem evaluated on a two-step run (exit 0 after 5
units, then exit 1 after 3 units) at the second projected step state. -/
theorem stepStates_terminated_witness :
    (sampleStepState.terminated.reason = "Completed" ↔
      sampleStepState.terminated.exitCode = 0) ∧
    (sampleStepState.terminated.reason = "Error" ↔
      sampleStepState.terminated.exitCode ≠ 0) ∧
    ∃ t0 t1, sampleStepState.terminated.startedAt = some t0 ∧
      sampleStepState.terminated.finishedAt = some t1 ∧ t0 ≤ t1 :=
  stepStates_terminated_spec [⟨0, 5⟩, ⟨1, 3⟩] 0 (by decide) sampleStepState (by decide)

/-- C9: whenever the wall-clock elapsed time exceeds a positive
`spec.timeout` and the run was not explicitly cancelled, the computed final
`Succeeded` condition has status `False` with reason `TaskRunTimeout`,
whatever the step outcome. -/
theorem taskRunTimeout_condition (elapsed timeout : Int) (outcome : StepsOutcome)
    (hpos : 0 < timeout) (hexceed : timeout < elapsed) :
    taskRunCondition elapsed timeout false outcome =
      { type := "Succeeded", status := "False", reason := "TaskRunTimeout" } := by
  simp [taskRunCondition, hpos, hexceed]

/-- C9 witness: the `TestTaskRunTimeout` scenario — timeout 15s, step
sleeping 15001s — yields False/TaskRunTimeout. -/
theorem taskRunTimeout_condition_witness :
    taskRunCondition 15001 15 false .running =
      { type := "Succeeded", status := "False", reason := "TaskRunTimeout" } :=
  taskRunTimeout_condition 15001 15 .running (by decide) (by decide)

/-- C10: for a completed PipelineRun, `ChildReferences` holds exactly one
entry per PipelineTask in declaration order, and every child TaskRun name is
the PipelineRun name and the PipelineTask name joined with a hyphen. -/
theorem childReferences_spec (prName : String) (tasks : List PipelineTaskRef) :
    (childReferences prName tasks).map (fun cr => cr.pipelineTaskName) =
      tasks.map (fun pt => pt.name) ∧
    ∀ cr ∈ childReferences prName tasks,
      cr.name = prName ++ "-" ++ cr.pipelineTaskName := by
  constructor
  · simp [childReferences]
  · intro cr hcr
    simp only [childReferences, List.mem_map] at hcr
    obtain ⟨pt, _, rfl⟩ := hcr
    rfl

theorem mem_validateDuration {e : FieldErr} (path : String) (d : Option Int)
    (h : e ∈ validateDuration path d) : e = .negativeDuration path := by
  cases d with
  | none => simp [validateDuration] at h
  | some v =>
    by_cases hv : v < 0 <;> simp [validateDuration, hv] at h
    exact h

theorem mem_boundErr {e : FieldErr} (path : String) (bound : Int) (d : Option Int)
    (h : e ∈ boundErr path bound d) : e = .timeoutExceedsBound path := by
  cases d with
  | none => simp [boundErr] at h
  | some v =>
    by_cases hv : (bound ≠ 0 ∧ bound < v) ∨ (v = 0 ∧ bound ≠ 0) <;>
      simp [boundErr, hv] at h
    exact h

theorem mem_validateTimeouts {e : FieldErr} (tf : TimeoutFields)
    (h : e ∈ validateTimeouts tf) :
    (∃ p, e = .negativeDuration p) ∨ (∃ p, e = .timeoutExceedsBound p) ∨
      e = .timeoutSumExceedsBound := by
  simp only [validateTimeouts, validateTimeoutBounds, List.append_assoc,
    List.mem_append] at h
  rcases h with h | h | h | h | h | h
  · exact Or.inl ⟨_, mem_validateDuration _ _ h⟩
  · exact Or.inl ⟨_, mem_validateDuration _ _ h⟩
  · exact Or.inl ⟨_, mem_validateDuration _ _ h⟩
  · exact Or.inr (Or.inl ⟨_, mem_boundErr _ _ _ h⟩)
  · exact Or.inr (Or.inl ⟨_, mem_boundErr _ _ _ h⟩)
  · obtain ⟨p, t, f⟩ := tf
    cases t <;> cases f <;> simp only at h
    · simp at h
    · simp at h
    · simp at h
    · rename_i tv fv
      by_cases hc : p.getD defaultTimeoutSeconds ≠ 0 ∧
          p.getD defaultTimeoutSeconds < tv + fv
      · simp only [if_pos hc, List.mem_singleton] at h
        exact Or.inr (Or.inr h)
      · simp [if_neg hc] at h

theorem mem_refErrs {e : FieldErr} (scope : List String) (path : String) (s : String)
    (h : e ∈ refErrs scope path s) : ∃ lit, e = .nonExistentVariable lit path := by
  simp only [refErrs, List.mem_filterMap] at h
  obtain ⟨r, _, hr⟩ := h
  by_cases hs : r.1 ∈ scope <;> simp [hs] at hr
  exact ⟨r.2, hr.symm⟩

theorem mem_refErrsIndexed {e : FieldErr} (scope : List String) (base : String)
    (i : Nat) (l : List String) (h : e ∈ refErrsIndexed scope base i l) :
    ∃ lit p, e = .nonExistentVariable lit p := by
  induction l generalizing i with
  | nil => simp [refErrsIndexed] at h
  | cons s rest ih =>
    simp only [refErrsIndexed, List.mem_append] at h
    rcases h with h | h
    · obtain ⟨lit, hl⟩ := mem_refErrs _ _ _ h
      exact ⟨lit, _, hl⟩
    · exact ih (i + 1) h

theorem mem_validateStepsRefs {e : FieldErr} (scope : List String) (si : Nat)
    (l : List Step) (h : e ∈ validateStepsRefs scope si l) :
    ∃ lit p, e = .nonExistentVariable lit p := by
  induction l generalizing si with
  | nil => simp [validateStepsRefs] at h
  | cons st rest ih =>
    simp only [validateStepsRefs, validateStepRefs, List.append_assoc,
      List.mem_append] at h
    rcases h with h | h | h | h
    · exact mem_refErrsIndexed _ _ _ _ h
    · exact mem_refErrsIndexed _ _ _ _ h
    · obtain ⟨lit, hl⟩ := mem_refErrs _ _ _ h
      exact ⟨lit, _, hl⟩
    · exact ih (si + 1) h

theorem mem_validateVariableRefs {e : FieldErr} (spec : PipelineRunSpec)
    (h : e ∈ validateVariableRefs spec) :
    ∃ lit p, e = .nonExistentVariable lit p := by
  unfold validateVariableRefs at h
  cases hps : spec.pipelineSpec with
  | none => simp [hps] at h
  | some ps =>
    simp only [hps, List.mem_flatMap] at h
    obtain ⟨pt, _, hmem⟩ := h
    cases hts : pt.taskSpec with
    | none => simp [hts] at hmem
    | some ts =>
      simp only [hts] at hmem
      exact mem_validateStepsRefs _ _ _ hmem

/-- C3: the modelled PipelineRun timeout validation enforces exactly the
spec's chain.  A set `timeouts` triplet is accepted iff every set duration
is nonnegative and, against the effective pipeline bound (the `pipeline`
bucket when set, the configured default otherwise), a positive bound forces
`0 < tasks ≤ bound`, `0 < finally ≤ bound` and `tasks + finally ≤ bound`
(zero buckets only under a zero bound; all-zero accepted); and a negative
duration is always rejected with the `should be >= 0` error at its field. -/
theorem pipelineRun_timeout_validation (tf : TimeoutFields) :
    (validateTimeouts tf = [] ↔ timeoutChainOK tf = true) ∧
    (∀ d, tf.pipeline = some d → d < 0 →
      FieldErr.negativeDuration "spec.timeouts.pipeline" ∈ validateTimeouts tf) ∧
    (∀ d, tf.tasks = some d → d < 0 →
      FieldErr.negativeDuration "spec.timeouts.tasks" ∈ validateTimeouts tf) ∧
    (∀ d, tf.finallyT = some d → d < 0 →
      FieldErr.negativeDuration "spec.timeouts.finally" ∈ validateTimeouts tf) := by
  obtain ⟨p, t, f⟩ := tf
  refine ⟨?_, ?_, ?_, ?_⟩
  · cases p <;> cases t <;> cases f <;>
      simp [validateTimeouts, validateDuration, validateTimeoutBounds, boundErr,
        timeoutChainOK, durOK, fieldChainOK, defaultTimeoutSeconds,
        List.append_eq_nil, ite_eq_right_iff] <;>
      omega
  · intro d hd hneg
    cases hd
    simp [validateTimeouts, validateDuration, hneg]
  · intro d hd hneg
    cases hd
    simp [validateTimeouts, validateDuration, hneg]
  · intro d hd hneg
    cases hd
    simp [validateTimeouts, validateDuration, hneg]

/-- C3 witness: the negative-tasks test case (-48h) is rejected with the
`should be >= 0` error at `spec.timeouts.tasks`, and the all-zero triplet is
accepted. -/
theorem pipelineRun_timeout_validation_witness :
    FieldErr.negativeDuration "spec.timeouts.tasks" ∈
      validateTimeouts { tasks := some (-172800) } ∧
    validateTimeouts { pipeline := some 0, tasks := some 0, finallyT := some 0 } = [] :=
  ⟨(pipelineRun_timeout_validation { tasks := some (-172800) }).2.2.1
      (-172800) rfl (by decide),
    (pipelineRun_timeout_validation
      { pipeline := some 0, tasks := some 0, finallyT := some 0 }).1.mpr (by decide)⟩

/-- C4: a PipelineRun whose spec requests status `PipelineRunPending` is
flagged with the cannot-be-Pending-after-started error exactly when
`status.startTime` is set: started runs are rejected, unstarted runs pass
the status-transition rule. -/
theorem pipelineRun_pending_validation (pr : PipelineRun)
    (hpending : pr.spec.status = "PipelineRunPending") :
    FieldErr.pendingAfterStarted ∈ pr.validate ↔ pr.startTimeSet = true := by
  constructor
  · intro h
    by_contra hns
    have hfalse : pr.startTimeSet = false := by
      cases hst : pr.startTimeSet
      · rfl
      · exact absurd hst hns
    simp only [PipelineRun.validate, hpending, hfalse, Bool.and_false,
      List.append_assoc, List.mem_append] at h
    rcases h with h | h | h | h | h | h
    · cases h1 : pr.spec.pipelineRef <;> cases h2 : pr.spec.pipelineSpec <;>
        simp [h1, h2] at h
    · by_cases hs : ("PipelineRunPending" : String) ∈
          ["", "Cancelled", "CancelledRunFinally", "StoppedRunFinally",
            "PipelineRunPending"] <;> simp [hs] at h
    · simp at h
    · exact absurd (mem_validateDuration _ _ h) (by simp)
    · cases hto : pr.spec.timeouts with
      | none => simp [hto] at h
      | some tf =>
        simp only [hto, List.mem_append] at h
        rcases h with h | h
        · by_cases hlt : pr.spec.timeout.isSome <;> simp [hlt] at h
        · rcases mem_validateTimeouts _ h with ⟨_, hh⟩ | ⟨_, hh⟩ | hh <;> simp at hh
    · obtain ⟨_, _, hh⟩ := mem_validateVariableRefs _ h
      simp at hh
  · intro hst
    simp [PipelineRun.validate, hpending, hst]

/-- C4 witness: the `pipelinerun pending while running` test case — pending
requested with `startTime` set — is flagged; the same run without a start
time is not. -/
theorem pipelineRun_pending_validation_witness :
    (FieldErr.pendingAfterStarted ∈
      PipelineRun.validate
        { name := "pipelinerunname"
          spec := { pipelineRef := some "prname", status := "PipelineRunPending" }
          startTimeSet := true }) ∧
    ¬ (FieldErr.pendingAfterStarted ∈
      PipelineRun.validate
        { name := "pipelinerunname"
          spec := { pipelineRef := some "prname", status := "PipelineRunPending" }
          startTimeSet := false }) :=
  ⟨(pipelineRun_pending_validation _ rfl).mpr rfl,
    fun h => by simpa using (pipelineRun_pending_validation _ rfl).mp h⟩

theorem missingKeysObjectParamNames_eq_nil (specs : List ParamSpec)
    (params : List Param) :
    missingKeysObjectParamNames specs params = [] ↔
      ∀ s ∈ specs, s.type = "object" → ∀ k ∈ s.properties,
        k ∈ defaultKeys s ∨ k ∈ providedKeys params s.name := by
  unfold missingKeysObjectParamNames
  rw [List.filterMap_eq_nil_iff]
  constructor
  · intro h s hs hobj k hk
    have hsome := h s hs
    simp only [if_pos hobj] at hsome
    by_contra hcon
    push_neg at hcon
    have hmem : k ∈ (s.properties.filter (fun k => k ∉ defaultKeys s)).filter
        (fun k => k ∉ providedKeys params s.name) := by
      simp only [List.mem_filter, decide_eq_true_eq]
      exact ⟨⟨hk, hcon.1⟩, hcon.2⟩
    cases hfil : (s.properties.filter (fun k => k ∉ defaultKeys s)).filter
        (fun k => k ∉ providedKeys params s.name) with
    | nil => rw [hfil] at hmem; simp at hmem
    | cons a as => rw [hfil] at hsome; simp at hsome
  · intro h s hs
    by_cases hobj : s.type = "object"
    · simp only [if_pos hobj]
      have hfil : (s.properties.filter (fun k => k ∉ defaultKeys s)).filter
          (fun k => k ∉ providedKeys params s.name) = [] := by
        rw [List.filter_eq_nil_iff]
        intro a ha
        rw [List.mem_filter] at ha
        simp only [decide_eq_true_eq] at ha ⊢
        intro hprov
        rcases h s hs hobj a ha.1 with h2 | h2
        · exact absurd h2 ha.2
        · exact hprov h2
      rw [hfil]
    · simp [hobj]

/-- C7: for a TaskRun resolved against a Task, when every required param is
supplied and no supplied param is mistyped, param validation succeeds iff
every declared property key of every object-typed param is supplied either
by the run's value or by the declaration's default — a run that omits a
declared key with no covering default is rejected, one that supplies the
keys missing from the default is accepted. -/
theorem resolvedTask_objectParam_keys (specs : List ParamSpec) (params : List Param)
    (hmiss : missingParamNames specs params = [])
    (htype : wrongTypeParamNames specs params = []) :
    validateResolvedParams specs params = [] ↔
      ∀ s ∈ specs, s.type = "object" → ∀ k ∈ s.properties,
        k ∈ defaultKeys s ∨ k ∈ providedKeys params s.name := by
  rw [← missingKeysObjectParamNames_eq_nil]
  unfold validateResolvedParams
  rw [hmiss, htype]
  cases hmk : missingKeysObjectParamNames specs params with
  | nil => simp
  | cons a as => simp

/-- C7 witness: the `TestValidateResolvedTask` object-param scenarios — the
run supplying only the keys missing from the defaults is accepted, the run
omitting declared keys with no covering default is rejected. -/
theorem resolvedTask_objectParam_keys_witness :
    validateResolvedParams objParamSpecs objParamsOK = [] ∧
    validateResolvedParams objParamSpecs objParamsMissing ≠ [] :=
  ⟨(resolvedTask_objectParam_keys objParamSpecs objParamsOK
      (by decide) (by decide)).mpr (by decide),
    fun h => absurd
      ((resolvedTask_objectParam_keys objParamSpecs objParamsMissing
        (by decide) (by decide)).mp h)
      (by decide)⟩

theorem refErrs_mem {scope : List String} {path : String} {s : String}
    {sym lit : String} (href : (sym, lit) ∈ extractParamRefs s.data)
    (hns : sym ∉ scope) :
    FieldErr.nonExistentVariable lit path ∈ refErrs scope path s := by
  simp only [refErrs, List.mem_filterMap]
  exact ⟨(sym, lit), href, by simp [hns]⟩

theorem refErrsIndexed_mem {scope : List String} {base : String}
    {sym lit arg : String} (l : List String) (i0 ai : Nat)
    (harg : l[ai]? = some arg)
    (href : (sym, lit) ∈ extractParamRefs arg.data) (hns : sym ∉ scope) :
    FieldErr.nonExistentVariable lit (base ++ "[" ++ toString (i0 + ai) ++ "]") ∈
      refErrsIndexed scope base i0 l := by
  induction l generalizing i0 ai with
  | nil => simp at harg
  | cons s rest ih =>
    cases ai with
    | zero =>
      rw [List.getElem?_cons_zero] at harg
      injection harg with harg
      subst harg
      simp only [refErrsIndexed, List.mem_append, Nat.add_zero]
      exact Or.inl (refErrs_mem href hns)
    | succ n =>
      rw [List.getElem?_cons_succ] at harg
      have heq : i0 + (n + 1) = (i0 + 1) + n := by omega
      rw [heq]
      simp only [refErrsIndexed, List.mem_append]
      exact Or.inr (ih (i0 + 1) n harg)

theorem validateStepRefs_mem_args {scope : List String} {si : Nat} {st : Step}
    {ai : Nat} {arg sym lit : String}
    (harg : st.args[ai]? = some arg)
    (href : (sym, lit) ∈ extractParamRefs arg.data) (hns : sym ∉ scope) :
    FieldErr.nonExistentVariable lit
        ("spec.steps[" ++ toString si ++ "].args" ++ "[" ++ toString ai ++ "]") ∈
      validateStepRefs scope si st := by
  simp only [validateStepRefs, List.append_assoc, List.mem_append]
  refine Or.inr (Or.inl ?_)
  have h0 : toString ai = toString (0 + ai) := by rw [Nat.zero_add]
  rw [h0]
  exact refErrsIndexed_mem st.args 0 ai harg href hns

theorem validateStepsRefs_mem {scope : List String} {e : FieldErr}
    (l : List Step) (si0 si : Nat) {st : Step}
    (hst : l[si]? = some st)
    (he : e ∈ validateStepRefs scope (si0 + si) st) :
    e ∈ validateStepsRefs scope si0 l := by
  induction l generalizing si0 si with
  | nil => simp at hst
  | cons s rest ih =>
    cases si with
    | zero =>
      rw [List.getElem?_cons_zero] at hst
      injection hst with hst
      subst hst
      simp only [validateStepsRefs, List.mem_append]
      exact Or.inl (by simpa using he)
    | succ n =>
      rw [List.getElem?_cons_succ] at hst
      have heq : si0 + (n + 1) = (si0 + 1) + n := by omega
      rw [heq] at he
      simp only [validateStepsRefs, List.mem_append]
      exact Or.inr (ih (si0 + 1) n hst he)

theorem mem_validate_of_varRef {pr : PipelineRun} {e : FieldErr}
    (h : e ∈ validateVariableRefs pr.spec) : e ∈ pr.validate := by
  simp only [PipelineRun.validate, List.append_assoc, List.mem_append]
  exact Or.inr (Or.inr (Or.inr (Or.inr (Or.inr h))))

theorem refErrs_nil {scope : List String} {path s : String}
    (h : ∀ r ∈ extractParamRefs s.data, r.1 ∈ scope) :
    refErrs scope path s = [] := by
  simp only [refErrs, List.filterMap_eq_nil_iff]
  intro r hr
  simp [h r hr]

theorem refErrsIndexed_nil {scope : List String} {base : String}
    (l : List String) (i0 : Nat)
    (h : ∀ s ∈ l, ∀ r ∈ extractParamRefs s.data, r.1 ∈ scope) :
    refErrsIndexed scope base i0 l = [] := by
  induction l generalizing i0 with
  | nil => rfl
  | cons s rest ih =>
    simp only [refErrsIndexed]
    rw [refErrs_nil (h s (by simp)), ih (i0 + 1) (fun x hx => h x (by simp [hx]))]
    rfl

theorem validateStepsRefs_nil {scope : List String} (l : List Step) (si0 : Nat)
    (h : ∀ st ∈ l, ∀ s ∈ st.command ++ st.args ++ [st.script],
      ∀ r ∈ extractParamRefs s.data, r.1 ∈ scope) :
    validateStepsRefs scope si0 l = [] := by
  induction l generalizing si0 with
  | nil => rfl
  | cons st rest ih =>
    have hst := h st (by simp)
    simp only [validateStepsRefs, validateStepRefs]
    rw [refErrsIndexed_nil _ _ (fun s hs => hst s (by simp [hs])),
      refErrsIndexed_nil _ _ (fun s hs => hst s (by simp [hs])),
      refErrs_nil (hst st.script (by simp)),
      ih (si0 + 1) (fun x hx => h x (by simp [hx]))]
    rfl

theorem validateVariableRefs_nil {spec : PipelineRunSpec} {ps : PipelineSpec}
    (hps : spec.pipelineSpec = some ps)
    (h : ∀ pt ∈ ps.tasks, ∀ ts, pt.taskSpec = some ts →
      ∀ st ∈ ts.steps, ∀ s ∈ st.command ++ st.args ++ [st.script],
        ∀ r ∈ extractParamRefs s.data, r.1 ∈ scopeNames spec pt ts) :
    validateVariableRefs spec = [] := by
  unfold validateVariableRefs
  rw [hps, List.flatMap_eq_nil_iff]
  intro pt hpt
  cases hts : pt.taskSpec with
  | none => simp
  | some ts =>
    simp only
    exact validateStepsRefs_nil _ 0 (h pt hpt ts hts)

/-- C8: an unresolved `$(params.X)` reference in a step string field of an
inlined task spec is reported as `non-existent variable in "<literal>"` at
the field's path, while a spec whose every reference is covered by the
in-scope set (run-supplied, pipeline-declared, task-bound or task-declared
params) produces no such error anywhere in validation. -/
theorem nonexistent_variable_validation (pr : PipelineRun) (ps : PipelineSpec)
    (hps : pr.spec.pipelineSpec = some ps) :
    (∀ (ti si ai : Nat) (pt : PipelineTask) (ts : TaskSpec) (st : Step)
        (arg sym lit : String),
      ps.tasks[ti]? = some pt → pt.taskSpec = some ts →
      ts.steps[si]? = some st → st.args[ai]? = some arg →
      (sym, lit) ∈ extractParamRefs arg.data →
      sym ∉ scopeNames pr.spec pt ts →
      FieldErr.nonExistentVariable lit
          ("spec.steps[" ++ toString si ++ "].args" ++ "[" ++ toString ai ++ "]") ∈
        pr.validate) ∧
    ((∀ pt ∈ ps.tasks, ∀ ts, pt.taskSpec = some ts →
        ∀ st ∈ ts.steps, ∀ s ∈ st.command ++ st.args ++ [st.script],
          ∀ r ∈ extractParamRefs s.data, r.1 ∈ scopeNames pr.spec pt ts) →
      ∀ lit p, FieldErr.nonExistentVariable lit p ∉ pr.validate) := by
  constructor
  · intro ti si ai pt ts st arg sym lit hpt hts hst harg href hns
    apply mem_validate_of_varRef
    unfold validateVariableRefs
    rw [hps, List.mem_flatMap]
    refine ⟨pt, ?_, ?_⟩
    · obtain ⟨hi, rfl⟩ := List.getElem?_eq_some.mp hpt
      exact List.getElem_mem hi
    · simp only [hts]
      apply validateStepsRefs_mem ts.steps 0 si hst
      have h0 : (0 : Nat) + si = si := by omega
      rw [h0]
      exact validateStepRefs_mem_args harg href hns
  · intro hscope lit p hmem
    have hnil := validateVariableRefs_nil hps hscope
    simp only [PipelineRun.validate, List.append_assoc, List.mem_append, hnil,
      List.not_mem_nil, or_false] at hmem
    rcases hmem with h | h | h | h | h
    · cases hr : pr.spec.pipelineRef <;> simp [hr, hps] at h
    · by_cases hs : pr.spec.status ∈
          ["", "Cancelled", "CancelledRunFinally", "StoppedRunFinally",
            "PipelineRunPending"] <;> simp [hs] at h
    · by_cases hs : (pr.spec.status == "PipelineRunPending" && pr.startTimeSet) =
          true <;> simp [hs] at h
    · exact absurd (mem_validateDuration _ _ h) (by simp)
    · cases hto : pr.spec.timeouts with
      | none => simp [hto] at h
      | some tf =>
        simp only [hto, List.mem_append] at h
        rcases h with h | h
        · by_cases hlt : pr.spec.timeout.isSome <;> simp [hlt] at h
        · rcases mem_validateTimeouts _ h with ⟨_, hh⟩ | ⟨_, hh⟩ | hh <;> simp at hh

/-- C8 witness: the `propagating params with pipelinespec and taskspec` test
case — the step references `$(params.random-words[*])` while only
`pipeline-words` is supplied — is reported at `spec.steps[0].args[0]`. -/
theorem nonexistent_variable_validation_witness :
    FieldErr.nonExistentVariable "$(params.random-words[*])" "spec.steps[0].args[0]" ∈
      propagatingRun.validate :=
  (nonexistent_variable_validation propagatingRun propagatingPipelineSpec rfl).1
    0 0 0 propagatingTask propagatingTaskSpec propagatingStep
    "$(params.random-words[*])" "random-words" "$(params.random-words[*])"
    rfl rfl rfl rfl (by decide) (by decide)

/-- C10 witness: the `TestPipelineRunChildReferences` scenario: run `pr` with
tasks `pipeline-task-0` and `pipeline-task-1`. -/
theorem childReferences_spec_witness :
    ({ pipelineTaskName := "pipeline-task-0", name := "pr-pipeline-task-0" } :
        ChildStatusReference).name = "pr" ++ "-" ++ "pipeline-task-0" :=
  (childReferences_spec "pr" [⟨"pipeline-task-0"⟩, ⟨"pipeline-task-1"⟩]).2
    { pipelineTaskName := "pipeline-task-0", name := "pr-pipeline-task-0" } (by decide)

end Tekton
